import Mathlib

/-!
Verification of the `check_afinfo` plugin
(`src/volatility/plugins/linux/check_afinfo.py`): a scan that enumerates
candidate function-pointer fields of network-protocol operation tables,
dereferences each pointer and resolves its address against the list of
loaded kernel modules, flagging pointers that fall outside every module.

The embedding keeps the source's names (`CreateChecks`, `check_members`,
`check_functions`).  External collaborators (the profile's type layout
database, the kernel address space, the `lsmod` module index) are modelled
at their interface boundary, following the spec where their code is not in
the repository.
-/

namespace CheckAFInfo

/-- A loaded-module address range, as produced by the module lister.
Modelled from the spec: ModuleRange is { name, start, end } and an address
belongs to a module when it lies in [start, end).  (`stop` stands for the
spec's `end`, a reserved word.) -/
structure ModuleRange where
  name : String
  start : Nat
  stop : Nat
deriving DecidableEq, Repr

/-- Modelled from the spec: `ModuleIndex.find_module(address) -> ModuleRange | none`,
the single external query used by the pointer resolver (the implementation
lives in the `lsmod` plugin, outside this repository's scanned sources).
Returns the first module whose [start, stop) range contains the address. -/
def find_module (idx : List ModuleRange) (a : Nat) : Option ModuleRange :=
  idx.find? (fun m => decide (m.start ≤ a) && decide (a < m.stop))

/-- The module-name classification performed at the end of `check_members`
(source lines 91-97): the name of the owning module when `find_module`
returns one, the literal sentinel `"Unknown"` otherwise. -/
def resolveName (idx : List ModuleRange) (a : Nat) : String :=
  match find_module idx a with
  | some m => m.name
  | none => "Unknown"

/-- Outcome of reading one member off a struct instance, at the boundary the
plugin sees after the framework's recovery.  Modelled from the spec: a member
absent from this kernel's layout reads as a falsy NoneObject, and "any read
failure against the address space is equivalent to no pointer" — both are
falsy to the `if not ptr` test; a successful read yields the pointer value. -/
inductive MemberRead where
  | val (v : Nat)
  | absent
  | readFault
deriving DecidableEq, Repr

/-- A struct instance: what `struct.m(member)` returns for each field path. -/
def StructInst : Type := String → MemberRead

/-- The kernel: which global symbols exist and what struct instance each
resolves to.  Modelled from the spec for
`get_constant_object(symbol, target, vm)`: an absent global is `none`. -/
def Kernel : Type := String → Option StructInst

/-- `struct.m(member)` on the NoneObject obtained for an absent global
symbol: every member read is falsy.  Modelled from the spec's silent-skip
policy for absent globals. -/
def emptyStruct : StructInst := fun _ => .absent

/-- The body of the loop in `check_members` for one member (the spec's
pointer resolver, `resolve_member`): read the pointer; a falsy read
(`if not ptr: continue`) yields nothing; otherwise the pointer value is the
function address (`func.obj_offset`) and the module index classifies it,
yielding `(member, func, module_name)`. -/
def resolve_member (idx : List ModuleRange) (struct : StructInst)
    (member : String) : Option (String × Nat × String) :=
  match struct member with
  | .val v => if v = 0 then none else some (member, v, resolveName idx v)
  | .absent => none
  | .readFault => none

/-- `check_members` from the source (lines 80-97): the loop over the member
list, yielding every non-skipped resolution. -/
def check_members (idx : List ModuleRange) (struct : StructInst)
    (members : List String) : List (String × Nat × String) :=
  members.filterMap (resolve_member idx struct)

/-- One check built by `CreateChecks`: a protocol family name, the record
type its global symbols point to, the global symbol names, and the member
field paths to examine. -/
structure Check where
  name : String
  constant_type : String
  global_vars : List String
  members : List String
deriving DecidableEq, Repr

/-- The profile's struct-layout database at the interface this plugin uses:
record type name to member-name list.  Modelled from the spec's StructLayout
contract (`has_type`, `type(name).members`). -/
def Profile : Type := List (String × List String)

/-- Member names of a record type, `none` when the type is absent from this
profile. -/
def typeMembers (p : Profile) (t : String) : Option (List String) :=
  (p.find? (fun e => e.1 == t)).map (fun e => e.2)

/-- `profile.has_type(name)` from the source. -/
def hasType (p : Profile) (t : String) : Bool :=
  (typeMembers p t).isSome

/-- A finding as yielded by the verification engine: the global symbol name,
the member field path, the function address, and the resolved module name. -/
structure Finding where
  symbol : String
  member : String
  func : Nat
  location : String
deriving DecidableEq, Repr

/-- `CreateChecks` from the source (lines 39-78).  The base member list is
read from the `file_operations` type unconditionally
(`self.profile.file_operations().members.keys()`, line 46); only the two
extensions are guarded by `has_type`.  Modelled from the spec for the
framework's behaviour on that unguarded access: a layout missing the
baseline record type is fatal (spec section 7), hence the `Option` result.
Note the second guarded extension re-reads the same `file_operations` type,
prefixing each member with `"seq_fops."`. -/
def CreateChecks (p : Profile) : Option (List Check) :=
  match typeMembers p "file_operations" with
  | none => none
  | some base =>
    let members₁ :=
      if hasType p "seq_operations" then
        base ++ ((typeMembers p "seq_operations").getD []).map
          (fun x => "seq_ops." ++ x)
      else base
    let members₂ :=
      if hasType p "file_operations" then
        members₁ ++ base.map (fun x => "seq_fops." ++ x)
      else members₁
    some [⟨"tcp", "tcp_seq_afinfo",
           ["tcp6_seq_afinfo", "tcp4_seq_afinfo"], members₂⟩,
          ⟨"udp", "udp_seq_afinfo",
           ["udplite6_seq_afinfo", "udp6_seq_afinfo",
            "udplite4_seq_afinfo", "udp4_seq_afinfo"], members₂⟩]

/-- The body of `check_functions` with the defect repaired as the spec's
design note directs: the yield carries the resolution bound by the loop
(`location1`) for that very member.  For each check, for each global symbol
(an absent one resolves to the falsy NoneObject `emptyStruct`), every
`check_members` result becomes a finding tagged with the symbol name. -/
def check_functions_fixed (K : Kernel) (idx : List ModuleRange)
    (checks : List Check) : List Finding :=
  checks.flatMap (fun check =>
    check.global_vars.flatMap (fun var =>
      let var_ptr := (K var).getD emptyStruct
      (check_members idx var_ptr check.members).map
        (fun r => ⟨var, r.1, r.2.1, r.2.2⟩)))

/-- `check_functions` from the source (lines 99-109), faithful to its
defect: the yield on line 109 reads the name `location`, which is bound
nowhere (the loop on line 107 binds `location1`), so evaluating the yield
expression raises `NameError` at the first result any combination produces.
A run therefore delivers the empty sequence when no combination yields a
result, and aborts with an exception — delivering no findings at all —
otherwise.  `check_functions_fixed` enumerates the loop's results in loop
order, so the run aborts exactly when that list is nonempty. -/
def check_functions (K : Kernel) (idx : List ModuleRange)
    (checks : List Check) : Except Unit (List Finding) :=
  match check_functions_fixed K idx checks with
  | [] => .ok []
  | _ => .error ()

/-- The checks with one global symbol name dropped from every check's
symbol list (used to state that an absent symbol is skipped silently: the
scan behaves as if the symbol were not listed at all). -/
def remove_symbol (checks : List Check) (v : String) : List Check :=
  checks.map (fun c =>
    ⟨c.name, c.constant_type, c.global_vars.filter (fun x => x != v), c.members⟩)

/-- A struct instance with one member's read outcome replaced (used to state
that a read fault behaves exactly like a null pointer). -/
def set_member (st : StructInst) (member : String) (r : MemberRead) :
    StructInst :=
  fun m => if m = member then r else st m

/-- The whole scan as `render` drives it: build the checks from the profile,
then run the verification engine; a failure in either stage is an exception. -/
def run_scan (p : Profile) (K : Kernel) (idx : List ModuleRange) :
    Except Unit (List Finding) :=
  match CreateChecks p with
  | none => .error ()
  | some checks => check_functions K idx checks

/-! ### Helper lemmas -/

/-- Characterisation of a successful pointer resolution. -/
theorem resolve_member_some_iff (idx : List ModuleRange) (st : StructInst)
    (a : String) (r : String × Nat × String) :
    resolve_member idx st a = some r ↔
      ∃ v, st a = .val v ∧ v ≠ 0 ∧ r = (a, v, resolveName idx v) := by
  unfold resolve_member
  cases h : st a with
  | val w =>
    by_cases hw : w = 0
    · subst hw
      simp only [if_pos rfl]
      constructor
      · intro hc
        exact absurd hc (by simp)
      · rintro ⟨v, hv, hne, -⟩
        injection hv with hv
        exact absurd hv.symm hne
    · simp only [if_neg hw, Option.some.injEq]
      constructor
      · intro hr
        exact ⟨w, rfl, hw, hr.symm⟩
      · rintro ⟨v, hv, -, hr⟩
        injection hv with hv
        subst hv
        exact hr.symm
  | absent => simp
  | readFault => simp

/-- A member on the NoneObject of an absent global never resolves. -/
theorem check_members_emptyStruct (idx : List ModuleRange)
    (members : List String) : check_members idx emptyStruct members = [] := by
  rw [check_members, List.filterMap_eq_nil_iff]
  intro a _
  rfl

/-! ### C2 -/

/-- C2: for one resolved struct instance and one member list, a finding is
emitted for a field exactly when the field exists on that struct instance
and the pointer value read from it is non-zero. -/
theorem c2_finding_iff (idx : List ModuleRange) (st : StructInst)
    (members : List String) (member : String) :
    (∃ v loc, (member, v, loc) ∈ check_members idx st members) ↔
      (member ∈ members ∧ ∃ v, st member = .val v ∧ v ≠ 0) := by
  constructor
  · rintro ⟨v, loc, hmem⟩
    rw [check_members, List.mem_filterMap] at hmem
    obtain ⟨a, ha, hfa⟩ := hmem
    rw [resolve_member_some_iff] at hfa
    obtain ⟨w, h1, h2, h3⟩ := hfa
    rw [Prod.mk.injEq, Prod.mk.injEq] at h3
    obtain ⟨rfl, rfl, -⟩ := h3
    exact ⟨ha, v, h1, h2⟩
  · rintro ⟨hmem, v, hval, hv⟩
    refine ⟨v, resolveName idx v, ?_⟩
    rw [check_members, List.mem_filterMap]
    refine ⟨member, hmem, ?_⟩
    rw [resolve_member_some_iff]
    exact ⟨v, hval, hv, rfl⟩

/-! ### C3 -/

/-- C3: a non-null pointer landing inside some module's [start, stop) range
resolves to a containing module's name (never the sentinel, provided no
module is itself named "Unknown"); a pointer outside every range resolves to
exactly "Unknown"; and the location carried by every emitted finding is this
resolution of the finding's own address. -/
theorem c3_module_resolution (idx : List ModuleRange) (a : Nat)
    (hU : ∀ m ∈ idx, m.name ≠ "Unknown") :
    ((∃ m ∈ idx, m.start ≤ a ∧ a < m.stop) →
      ∃ m ∈ idx, (m.start ≤ a ∧ a < m.stop) ∧ resolveName idx a = m.name ∧
        resolveName idx a ≠ "Unknown") ∧
    ((∀ m ∈ idx, ¬(m.start ≤ a ∧ a < m.stop)) →
      resolveName idx a = "Unknown") ∧
    (∀ (st : StructInst) (members : List String) (member : String)
        (v : Nat) (loc : String),
      (member, v, loc) ∈ check_members idx st members → loc = resolveName idx v) := by
  refine ⟨?_, ?_, ?_⟩
  · rintro ⟨m, hm, hr⟩
    cases h : find_module idx a with
    | none =>
      rw [find_module, List.find?_eq_none] at h
      exact absurd (by simpa using hr) (by simpa using h m hm)
    | some m' =>
      have hpred := List.find?_some h
      have hmem := List.mem_of_find?_eq_some h
      refine ⟨m', hmem, by simpa using hpred, ?_, ?_⟩
      · rw [resolveName, h]
      · rw [resolveName, h]
        exact hU m' hmem
  · intro hnone
    have h : find_module idx a = none := by
      rw [find_module, List.find?_eq_none]
      intro m hm
      simpa using hnone m hm
    rw [resolveName, h]
  · intro st members member v loc hmem
    rw [check_members, List.mem_filterMap] at hmem
    obtain ⟨b, -, hfb⟩ := hmem
    rw [resolve_member_some_iff] at hfb
    obtain ⟨w, -, -, h3⟩ := hfb
    rw [Prod.mk.injEq, Prod.mk.injEq] at h3
    obtain ⟨-, rfl, rfl⟩ := h3
    rfl

/-- Witness for C3 at a concrete module index and addresses. -/
theorem c3_module_resolution_witness :
    (∀ m ∈ [ModuleRange.mk "tcp_mod" 0x1000 0x2000], m.name ≠ "Unknown") ∧
    ((∃ m ∈ [ModuleRange.mk "tcp_mod" 0x1000 0x2000],
        m.start ≤ 0x1500 ∧ 0x1500 < m.stop) →
      ∃ m ∈ [ModuleRange.mk "tcp_mod" 0x1000 0x2000],
        (m.start ≤ 0x1500 ∧ 0x1500 < m.stop) ∧
        resolveName [ModuleRange.mk "tcp_mod" 0x1000 0x2000] 0x1500 = m.name ∧
        resolveName [ModuleRange.mk "tcp_mod" 0x1000 0x2000] 0x1500 ≠ "Unknown") := by
  have hU : ∀ m ∈ [ModuleRange.mk "tcp_mod" 0x1000 0x2000], m.name ≠ "Unknown" := by
    decide
  exact ⟨hU, (c3_module_resolution [ModuleRange.mk "tcp_mod" 0x1000 0x2000] 0x1500 hU).1⟩

/-! ### C1 -/

/-- C1: the defect on the yield line of `check_functions`.  At a kernel
whose `tcp4_seq_afinfo` carries one non-null pointer, `check_members`
resolves that very member to the module name `"tcp_mod"`, yet the engine
run aborts with the `NameError` raised by the unbound name `location`
(the loop binds `location1`), delivering no finding carrying that
resolution. -/
theorem c1_location_defect :
    check_members [ModuleRange.mk "tcp_mod" 0x1000 0x2000]
        (fun m => if m = "seq_show" then MemberRead.val 0x1500 else MemberRead.absent)
        ["seq_show"] = [("seq_show", 0x1500, "tcp_mod")] ∧
    check_functions
        (fun s => if s = "tcp4_seq_afinfo" then
            some (fun m => if m = "seq_show" then MemberRead.val 0x1500
                           else MemberRead.absent)
          else none)
        [ModuleRange.mk "tcp_mod" 0x1000 0x2000]
        [Check.mk "tcp" "tcp_seq_afinfo" ["tcp4_seq_afinfo"] ["seq_show"]] =
      Except.error () := by
  exact ⟨rfl, rfl⟩

/-! ### C7 -/

/-- C7: with two candidate combinations due in loop order (the repaired
loop body produces the two resolutions, ordered by field order), the engine
as written aborts at the first result (`NameError` on the unbound
`location`), so the run does not visit and emit each combination exactly
once in order — it delivers nothing. -/
theorem c7_visit_order_defect :
    check_functions_fixed
        (fun s => if s = "tcp4_seq_afinfo" then
            some (fun m => if m = "seq_show" then MemberRead.val 0x1500
                           else if m = "seq_write" then MemberRead.val 0x9000
                           else MemberRead.absent)
          else none)
        [ModuleRange.mk "tcp_mod" 0x1000 0x2000]
        [Check.mk "tcp" "tcp_seq_afinfo" ["tcp4_seq_afinfo"] ["seq_show", "seq_write"]] =
      [Finding.mk "tcp4_seq_afinfo" "seq_show" 0x1500 "tcp_mod",
       Finding.mk "tcp4_seq_afinfo" "seq_write" 0x9000 "Unknown"] ∧
    check_functions
        (fun s => if s = "tcp4_seq_afinfo" then
            some (fun m => if m = "seq_show" then MemberRead.val 0x1500
                           else if m = "seq_write" then MemberRead.val 0x9000
                           else MemberRead.absent)
          else none)
        [ModuleRange.mk "tcp_mod" 0x1000 0x2000]
        [Check.mk "tcp" "tcp_seq_afinfo" ["tcp4_seq_afinfo"] ["seq_show", "seq_write"]] =
      Except.error () := by
  exact ⟨rfl, rfl⟩

/-! ### C8 -/

/-- C8: the scan is deterministic in its inputs — two runs against the same
profile with an unchanged address-space/kernel view and an unchanged module
index produce identical outcomes (same findings, same contents, same
order). -/
theorem c8_deterministic (p : Profile) (K K₂ : Kernel)
    (idx idx₂ : List ModuleRange) (hK : K₂ = K) (hidx : idx₂ = idx) :
    run_scan p K idx = run_scan p K₂ idx₂ ∧
    check_functions_fixed K idx ((CreateChecks p).getD []) =
      check_functions_fixed K₂ idx₂ ((CreateChecks p).getD []) := by
  rw [hK, hidx]
  exact ⟨rfl, rfl⟩

/-- Witness for C8 at a concrete profile, kernel and module index. -/
theorem c8_deterministic_witness :
    run_scan [("file_operations", ["owner"])] (fun _ => none) [] =
      run_scan [("file_operations", ["owner"])] (fun _ => none) [] :=
  (c8_deterministic [("file_operations", ["owner"])]
    (fun _ => none) (fun _ => none) [] [] rfl rfl).1

/-! ### CreateChecks unfolding -/

/-- When the `file_operations` type is present, `CreateChecks` succeeds and
its two checks share the member list built from the base list, the guarded
`seq_ops.` extension, and the `seq_fops.` copy of the base list. -/
theorem CreateChecks_eq (p : Profile) (base : List String)
    (h : typeMembers p "file_operations" = some base) :
    CreateChecks p = some
      [⟨"tcp", "tcp_seq_afinfo", ["tcp6_seq_afinfo", "tcp4_seq_afinfo"],
        (if hasType p "seq_operations" then
           base ++ ((typeMembers p "seq_operations").getD []).map
             (fun x => "seq_ops." ++ x)
         else base) ++ base.map (fun x => "seq_fops." ++ x)⟩,
       ⟨"udp", "udp_seq_afinfo",
        ["udplite6_seq_afinfo", "udp6_seq_afinfo",
         "udplite4_seq_afinfo", "udp4_seq_afinfo"],
        (if hasType p "seq_operations" then
           base ++ ((typeMembers p "seq_operations").getD []).map
             (fun x => "seq_ops." ++ x)
         else base) ++ base.map (fun x => "seq_fops." ++ x)⟩] := by
  have hft : hasType p "file_operations" = true := by
    rw [hasType, h]
    rfl
  unfold CreateChecks
  rw [h]
  simp only [hft, if_true]

/-! ### C4 -/

/-- C4 counterexample: a layout lacking the "sequence operations" and
"sequence file operations" record types does not yield the base field list
— the base member list is read from the very same `file_operations` record
type on line 46, unguarded, so the enumeration fails instead of completing. -/
theorem c4_counterexample :
    CreateChecks [("proto_ops", ["family", "release"])] = none := by
  rfl

/-- C4 (amended): provided the layout defines the base `file_operations`
record type, the enumeration never fails; an absent "sequence operations"
record type contributes zero fields, and each check still carries the full
base-type field list (followed by its `seq_fops.` copy, since the
"sequence file operations" type is that same base type). -/
theorem c4_amended_enumeration (p : Profile) (base : List String)
    (h : typeMembers p "file_operations" = some base)
    (hs : hasType p "seq_operations" = false) :
    ∃ cs, CreateChecks p = some cs ∧ cs ≠ [] ∧
      ∀ c ∈ cs, c.members = base ++ base.map (fun x => "seq_fops." ++ x) := by
  refine ⟨_, CreateChecks_eq p base h, by simp, ?_⟩
  intro c hc
  rw [List.mem_cons, List.mem_cons] at hc
  rcases hc with rfl | rfl | hc
  · simp [hs]
  · simp [hs]
  · exact absurd hc (List.not_mem_nil c)

/-- Witness for C4 (amended) at a concrete layout that has the base type
but no "sequence operations" type. -/
theorem c4_amended_enumeration_witness :
    typeMembers [("file_operations", ["owner", "read"])] "file_operations" =
      some ["owner", "read"] ∧
    hasType [("file_operations", ["owner", "read"])] "seq_operations" = false ∧
    ∃ cs, CreateChecks [("file_operations", ["owner", "read"])] = some cs ∧
      cs ≠ [] ∧ ∀ c ∈ cs, c.members =
        ["owner", "read"] ++ ["owner", "read"].map (fun x => "seq_fops." ++ x) := by
  refine ⟨rfl, rfl, ?_⟩
  exact c4_amended_enumeration [("file_operations", ["owner", "read"])]
    ["owner", "read"] rfl rfl

/-! ### C9 -/

/-- C9: `CreateChecks` produces exactly two checks — the TCP check with the
TCP sequence-info record type and the IPv6/IPv4 TCP info globals, and the
UDP check with the UDP sequence-info record type and the four IPv6/IPv4
UDP and UDP-lite info globals — and both carry the same candidate field
list. -/
theorem c9_two_checks (p : Profile) (base : List String)
    (h : typeMembers p "file_operations" = some base) :
    ∃ ms, CreateChecks p = some
      [⟨"tcp", "tcp_seq_afinfo", ["tcp6_seq_afinfo", "tcp4_seq_afinfo"], ms⟩,
       ⟨"udp", "udp_seq_afinfo",
        ["udplite6_seq_afinfo", "udp6_seq_afinfo",
         "udplite4_seq_afinfo", "udp4_seq_afinfo"], ms⟩] :=
  ⟨_, CreateChecks_eq p base h⟩

/-- Witness for C9 at a concrete layout. -/
theorem c9_two_checks_witness :
    typeMembers [("file_operations", ["owner"])] "file_operations" =
      some ["owner"] ∧
    ∃ ms, CreateChecks [("file_operations", ["owner"])] = some
      [⟨"tcp", "tcp_seq_afinfo", ["tcp6_seq_afinfo", "tcp4_seq_afinfo"], ms⟩,
       ⟨"udp", "udp_seq_afinfo",
        ["udplite6_seq_afinfo", "udp6_seq_afinfo",
         "udplite4_seq_afinfo", "udp4_seq_afinfo"], ms⟩] :=
  ⟨rfl, c9_two_checks [("file_operations", ["owner"])] ["owner"] rfl⟩

/-! ### C10 -/

/-- C10: whenever the layout defines the `file_operations` record type,
every member of that type occurs in each check's candidate field list both
as a bare field path and, a second distinct entry, prefixed with
`"seq_fops."` — the base list and the "sequence file operations" sub-table
are enumerated from the same record type. -/
theorem c10_fileops_twice (p : Profile) (base : List String) (x : String)
    (h : typeMembers p "file_operations" = some base) (hx : x ∈ base) :
    ∀ cs, CreateChecks p = some cs → ∀ c ∈ cs,
      x ∈ c.members ∧ ("seq_fops." ++ x) ∈ c.members ∧
        x ≠ "seq_fops." ++ x := by
  intro cs hcs c hc
  rw [CreateChecks_eq p base h] at hcs
  injection hcs with hcs
  subst hcs
  have hlen : x ≠ "seq_fops." ++ x := by
    intro heq
    have hl := congrArg String.length heq
    rw [String.length_append] at hl
    have h9 : ("seq_fops." : String).length = 9 := rfl
    omega
  have hmem : x ∈ (if hasType p "seq_operations" then
      base ++ ((typeMembers p "seq_operations").getD []).map
        (fun y => "seq_ops." ++ y)
    else base) ++ base.map (fun y => "seq_fops." ++ y) := by
    rw [List.mem_append]
    left
    by_cases hs : hasType p "seq_operations"
    · rw [if_pos hs, List.mem_append]
      exact Or.inl hx
    · rw [if_neg hs]
      exact hx
  have hmem₂ : ("seq_fops." ++ x) ∈ (if hasType p "seq_operations" then
      base ++ ((typeMembers p "seq_operations").getD []).map
        (fun y => "seq_ops." ++ y)
    else base) ++ base.map (fun y => "seq_fops." ++ y) := by
    rw [List.mem_append]
    right
    exact List.mem_map.mpr ⟨x, hx, rfl⟩
  rw [List.mem_cons, List.mem_cons] at hc
  rcases hc with rfl | rfl | hc
  · exact ⟨hmem, hmem₂, hlen⟩
  · exact ⟨hmem, hmem₂, hlen⟩
  · exact absurd hc (List.not_mem_nil c)

/-- Witness for C10 at a concrete layout defining `file_operations`. -/
theorem c10_fileops_twice_witness :
    typeMembers [("file_operations", ["owner", "read"])] "file_operations" =
      some ["owner", "read"] ∧
    "read" ∈ ["owner", "read"] ∧
    ∀ cs, CreateChecks [("file_operations", ["owner", "read"])] = some cs →
      ∀ c ∈ cs, "read" ∈ c.members ∧ ("seq_fops." ++ "read") ∈ c.members ∧
        "read" ≠ "seq_fops." ++ "read" :=
  ⟨rfl, by decide,
   c10_fileops_twice [("file_operations", ["owner", "read"])]
     ["owner", "read"] "read" rfl (by decide)⟩

/-! ### C5 -/

/-- C5: a global symbol absent from this kernel build is skipped silently —
no finding carries that symbol, and the whole run (both the per-combination
results and the engine's outcome) is exactly what it would be had the
symbol not been listed at all, so the scan continues with the remaining
symbols and checks. -/
theorem c5_absent_symbol (K : Kernel) (idx : List ModuleRange)
    (checks : List Check) (v : String) (h : K v = none) :
    (∀ f ∈ check_functions_fixed K idx checks, f.symbol ≠ v) ∧
    check_functions_fixed K idx checks =
      check_functions_fixed K idx (remove_symbol checks v) ∧
    check_functions K idx checks =
      check_functions K idx (remove_symbol checks v) := by
  have hgetD : (K v).getD emptyStruct = emptyStruct := by
    rw [h]
    rfl
  have hinner : ∀ (members : List String) (vars : List String),
      vars.flatMap (fun var =>
        (check_members idx ((K var).getD emptyStruct) members).map
          (fun r => (⟨var, r.1, r.2.1, r.2.2⟩ : Finding))) =
      (vars.filter (fun x => x != v)).flatMap (fun var =>
        (check_members idx ((K var).getD emptyStruct) members).map
          (fun r => (⟨var, r.1, r.2.1, r.2.2⟩ : Finding))) := by
    intro members vars
    induction vars with
    | nil => rfl
    | cons w ws ih =>
      rw [List.flatMap_cons, List.filter_cons]
      by_cases hw : w = v
      · subst hw
        simp only [bne_self_eq_false, if_false, Bool.false_eq_true]
        rw [hgetD, check_members_emptyStruct]
        simpa using ih
      · have hb : (w != v) = true := by simp [hw]
        simp only [hb, if_true, List.flatMap_cons]
        rw [ih]
  have h2 : check_functions_fixed K idx checks =
      check_functions_fixed K idx (remove_symbol checks v) := by
    induction checks with
    | nil => rfl
    | cons c cs ih =>
      have hl : check_functions_fixed K idx (c :: cs) =
          (c.global_vars.flatMap (fun var =>
            (check_members idx ((K var).getD emptyStruct) c.members).map
              (fun r => (⟨var, r.1, r.2.1, r.2.2⟩ : Finding)))) ++
          check_functions_fixed K idx cs := by
        rw [check_functions_fixed, check_functions_fixed, List.flatMap_cons]
      have hr : check_functions_fixed K idx (remove_symbol (c :: cs) v) =
          ((c.global_vars.filter (fun x => x != v)).flatMap (fun var =>
            (check_members idx ((K var).getD emptyStruct) c.members).map
              (fun r => (⟨var, r.1, r.2.1, r.2.2⟩ : Finding)))) ++
          check_functions_fixed K idx (remove_symbol cs v) := by
        rw [remove_symbol, List.map_cons, check_functions_fixed,
          check_functions_fixed, List.flatMap_cons]
        rfl
      rw [hl, hr, ih, hinner c.members c.global_vars]
  refine ⟨?_, h2, ?_⟩
  · intro f hf
    simp only [check_functions_fixed, List.mem_flatMap, List.mem_map] at hf
    obtain ⟨c, hc, w, hw, r, hr, rfl⟩ := hf
    intro hfv
    have hwv : w = v := hfv
    rw [hwv, hgetD, check_members_emptyStruct] at hr
    exact absurd hr (List.not_mem_nil r)
  · rw [check_functions, check_functions, h2]

/-- Witness for C5: a kernel with no globals at all, a check listing the
absent symbol "udp6_seq_afinfo". -/
theorem c5_absent_symbol_witness :
    (fun (_ : String) => (none : Option StructInst)) "udp6_seq_afinfo" = none ∧
    ((∀ f ∈ check_functions_fixed (fun _ => none) []
        [Check.mk "udp" "udp_seq_afinfo"
          ["udplite6_seq_afinfo", "udp6_seq_afinfo"] ["owner"]],
        f.symbol ≠ "udp6_seq_afinfo") ∧
     check_functions_fixed (fun _ => none) []
        [Check.mk "udp" "udp_seq_afinfo"
          ["udplite6_seq_afinfo", "udp6_seq_afinfo"] ["owner"]] =
       check_functions_fixed (fun _ => none) []
        (remove_symbol
          [Check.mk "udp" "udp_seq_afinfo"
            ["udplite6_seq_afinfo", "udp6_seq_afinfo"] ["owner"]]
          "udp6_seq_afinfo") ∧
     check_functions (fun _ => none) []
        [Check.mk "udp" "udp_seq_afinfo"
          ["udplite6_seq_afinfo", "udp6_seq_afinfo"] ["owner"]] =
       check_functions (fun _ => none) []
        (remove_symbol
          [Check.mk "udp" "udp_seq_afinfo"
            ["udplite6_seq_afinfo", "udp6_seq_afinfo"] ["owner"]]
          "udp6_seq_afinfo")) :=
  ⟨rfl,
   c5_absent_symbol (fun _ => none) []
     [Check.mk "udp" "udp_seq_afinfo"
       ["udplite6_seq_afinfo", "udp6_seq_afinfo"] ["owner"]]
     "udp6_seq_afinfo" rfl⟩

/-! ### C6 -/

/-- C6: a member whose read faults against the address space contributes no
finding — it is skipped exactly like a null pointer, producing the same
finding list as the same struct instance with that member read as null, so
one bad read never aborts the rest of the member loop. -/
theorem c6_read_fault_skips (idx : List ModuleRange) (st : StructInst)
    (members : List String) (member : String)
    (h : st member = .readFault) :
    (∀ v loc, (member, v, loc) ∉ check_members idx st members) ∧
    check_members idx st members =
      check_members idx (set_member st member (.val 0)) members := by
  constructor
  · intro v loc hmem
    rw [check_members, List.mem_filterMap] at hmem
    obtain ⟨a, -, hfa⟩ := hmem
    rw [resolve_member_some_iff] at hfa
    obtain ⟨w, h1, -, h3⟩ := hfa
    rw [Prod.mk.injEq, Prod.mk.injEq] at h3
    obtain ⟨rfl, -, -⟩ := h3
    rw [h] at h1
    exact absurd h1 (by simp)
  · rw [check_members, check_members]
    apply List.filterMap_congr
    intro a _
    by_cases ha : a = member
    · subst ha
      rw [resolve_member, resolve_member, h]
      have hset : set_member st a (.val 0) a = .val 0 := by
        rw [set_member]
        simp
      rw [hset]
      rfl
    · have hset : set_member st member (.val 0) a = st a := by
        rw [set_member]
        simp [ha]
      rw [resolve_member, resolve_member, hset]

/-- Witness for C6: a struct whose "seq_show" read faults; it is skipped
exactly like a null read. -/
theorem c6_read_fault_skips_witness :
    (fun m => if m = "seq_show" then MemberRead.readFault
              else MemberRead.absent) "seq_show" = MemberRead.readFault ∧
    ((∀ v loc, (("seq_show" : String), v, loc) ∉
        check_members []
          (fun m => if m = "seq_show" then MemberRead.readFault
                    else MemberRead.absent) ["seq_show", "seq_write"]) ∧
     check_members []
        (fun m => if m = "seq_show" then MemberRead.readFault
                  else MemberRead.absent) ["seq_show", "seq_write"] =
       check_members []
        (set_member
          (fun m => if m = "seq_show" then MemberRead.readFault
                    else MemberRead.absent) "seq_show" (.val 0))
        ["seq_show", "seq_write"]) :=
  ⟨rfl,
   c6_read_fault_skips []
     (fun m => if m = "seq_show" then MemberRead.readFault
               else MemberRead.absent) ["seq_show", "seq_write"] "seq_show" rfl⟩

end CheckAFInfo
